import Mathlib

/-!
Shallow embedding of the command/response correlation bridge of
`src/api-server.mjs` and its peer client `src/website/src/repl/api-client.mjs`.

Server side: the connected-client set, the pending-request table, the error
ring, the `broadcast` fan-out and the HTTP route handlers are embedded as pure
functions over an explicit `ServerState`.  JavaScript `Map`s are lists of keys
(the resolve/reject continuations are modelled by an append-only `outcomes`
log), machine ids are `Nat`, and the JS truthiness used by the source
(`message.id && ...`, `x || y`) is made explicit.  Decorative logging has no
observable effect and is omitted.

Peer side: the `handleAPIMessage` dispatcher is embedded over a `PeerState`;
the editing surface is an `Editor` record and the host regular-expression
engine (`new RegExp`, `String.replace`) is passed in as an explicit `compile`
oracle, `none` meaning pattern compilation throws.
-/

namespace StrudelBridge

/-- A JSON scalar, enough for the response bodies the routes build. -/
inductive JVal where
  | s (v : String)
  | n (v : Nat)
  deriving DecidableEq, Repr

/-- An HTTP response: status code plus JSON object body (field, value) pairs. -/
structure HttpResp where
  status : Nat
  body : List (String × JVal)
  deriving DecidableEq, Repr

/-- JS `a || b` for a possibly-undefined string `a`: `b` when `a` is
`undefined` or the (falsy) empty string. -/
def jsOrStr (a : Option String) (b : String) : String :=
  match a with
  | some s => if s = "" then b else s
  | none => b

/-- An error record as built by the `error-report` handler
(`src/api-server.mjs` lines 199-213): `{ message, timestamp, source }`. -/
structure ErrorRecord where
  message : String
  timestamp : String
  source : String
  deriving DecidableEq, Repr

/-- Envelopes the server broadcasts to peers. -/
inductive Envelope where
  | getContent (id : Nat)
  | setContent (content : String)
  | appendContent (content : String)
  | replaceEnv (find : String) (replace : String) (flags : String)
  | evaluateEnv (selection : Bool)
  deriving DecidableEq, Repr

/-- `JSON.stringify` of an envelope (`const data = JSON.stringify(message)`,
line 227): a concrete injective rendering, computed once per broadcast. -/
def serializeEnvelope : Envelope → String
  | .getContent id =>
      "\x7b\"type\":\"get-content\",\"id\":" ++ toString id ++ "\x7d"
  | .setContent c =>
      "\x7b\"type\":\"set-content\",\"content\":\"" ++ c ++ "\"\x7d"
  | .appendContent c =>
      "\x7b\"type\":\"append-content\",\"content\":\"" ++ c ++ "\"\x7d"
  | .replaceEnv f r fl =>
      "\x7b\"type\":\"replace\",\"find\":\"" ++ f ++ "\",\"replace\":\"" ++ r ++
        "\",\"flags\":\"" ++ fl ++ "\"\x7d"
  | .evaluateEnv sel =>
      "\x7b\"type\":\"evaluate\",\"selection\":" ++ (if sel then "true" else "false") ++ "\x7d"

/-- One connected browser socket.  `readyStateOpen` is
`client.readyState === WebSocket.OPEN`; `sendFails` models a transport fault
during `client.send(data)` — the `ws` library reports such a fault
asynchronously on the socket itself, it is never thrown to the caller of
`send`, so a failing send simply drops the frame.  `inbox` is the sequence of
frames actually delivered to this peer. -/
structure Client where
  readyStateOpen : Bool
  sendFails : Bool
  inbox : List String
  deriving DecidableEq, Repr

/-- How one pending read request was settled. -/
inductive ReqOutcome where
  | resolved (content : String)
  | timedOut
  deriving DecidableEq, Repr

/-- The server's mutable globals: `clients` (the `Set` of sockets),
`pendingRequests` (the `Map`, as its key list; continuations are replayed into
`outcomes`), `recentErrors`, the started deadline timers `(id, delayMs)`, the
log of settlements delivered to waiters, and the fresh-id source (the code
draws `Date.now() + Math.random()`; drawing is modelled as consuming
`idSeed`). -/
structure ServerState where
  clients : List Client
  pendingRequests : List Nat
  timers : List (Nat × Nat)
  recentErrors : List ErrorRecord
  outcomes : List (Nat × ReqOutcome)
  idSeed : Nat
  deriving DecidableEq, Repr

/-- Delivery of one serialized frame to one client
(`if (client.readyState === WebSocket.OPEN) client.send(data)`, lines
229-233): closed sockets are skipped, a faulting send drops the frame. -/
def sendFrame (data : String) (c : Client) : Client :=
  if c.readyStateOpen then
    if c.sendFails then c else { c with inbox := c.inbox ++ [data] }
  else c

/-- `broadcast(message)` (lines 221-235): `false` and no side effect when no
clients are registered, else serialize once, attempt delivery to every open
client, return `true`. -/
def broadcast (st : ServerState) (env : Envelope) : ServerState × Bool :=
  if st.clients.isEmpty then (st, false)
  else
    let data := serializeEnvelope env
    ({ st with clients := st.clients.map (sendFrame data) }, true)

/-- The `content-response` branch of the server's message handler (lines
191-195): if the id is truthy and pending, resolve the waiter with the content
and delete the table entry; otherwise do nothing. -/
def handleContentResponse (st : ServerState) (id : Nat) (content : String) :
    ServerState :=
  if id ≠ 0 ∧ id ∈ st.pendingRequests then
    { st with
      pendingRequests := st.pendingRequests.erase id
      outcomes := st.outcomes ++ [(id, ReqOutcome.resolved content)] }
  else st

/-- The deadline callback registered by `GET /api/editor/content` (lines
254-259): if the id is still pending, delete the entry and reject the
waiter with the timeout error. -/
def fireTimeout (st : ServerState) (id : Nat) : ServerState :=
  if id ∈ st.pendingRequests then
    { st with
      pendingRequests := st.pendingRequests.erase id
      outcomes := st.outcomes ++ [(id, ReqOutcome.timedOut)] }
  else st

/-- `recentErrors.push(errorInfo); if (recentErrors.length > 10)
recentErrors.shift()` (lines 205-210). -/
def pushError (log : List ErrorRecord) (r : ErrorRecord) : List ErrorRecord :=
  let l := log ++ [r]
  if l.length > 10 then l.tail else l

/-- The `error-report` branch of the message handler (lines 199-213):
build the record (source defaulted by `message.source || 'unknown'`, the
timestamp taken from the clock, passed here as `ts`) and push it. -/
def handleErrorReport (st : ServerState) (error : String)
    (source : Option String) (ts : String) : ServerState :=
  { st with recentErrors :=
      pushError st.recentErrors ⟨error, ts, jsOrStr source "unknown"⟩ }

/-- The read-request deadline, `setTimeout(..., 5000)` (line 259). -/
def defaultTimeoutMs : Nat := 5000

/-- Result of the synchronous part of `GET /api/editor/content`:
the state after it, an immediate response when one was produced, and the
correlation id registered when one was. -/
structure GetContentResult where
  state : ServerState
  immediate : Option HttpResp
  registeredId : Option Nat
  deriving DecidableEq, Repr

/-- The synchronous part of `GET /api/editor/content` (lines 240-263): fail
503 at once when no client is connected; otherwise draw a fresh id, register
the waiter, start the 5000 ms deadline timer and broadcast the `get-content`
envelope. -/
def getContentStart (st : ServerState) : GetContentResult :=
  if st.clients.isEmpty then
    ⟨st, some ⟨503, [("error", JVal.s "No browsers connected")]⟩, none⟩
  else
    let requestId := st.idSeed
    let st1 := { st with
      idSeed := st.idSeed + 1
      pendingRequests := requestId :: st.pendingRequests
      timers := st.timers ++ [(requestId, defaultTimeoutMs)] }
    let st2 := (broadcast st1 (Envelope.getContent requestId)).1
    ⟨st2, none, some requestId⟩

/-- The HTTP response `GET /api/editor/content` sends once its promise
settles (lines 265-270): the content on resolution, 408 on the timeout
rejection. -/
def respOfOutcome : ReqOutcome → HttpResp
  | .resolved c => ⟨200, [("content", JVal.s c), ("length", JVal.n c.length)]⟩
  | .timedOut => ⟨408, [("error", JVal.s "Timeout waiting for browser response")]⟩

/-- `POST /api/editor/content` (lines 274-290).  `content` is the request
body's field, `none` when absent; `!content && content !== ''` rejects exactly
the absent field once bodies carry strings.  Returns the new state, the HTTP
response, and the envelope handed to `broadcast` when validation passed. -/
def postContentHandler (st : ServerState) (content : Option String) :
    ServerState × HttpResp × Option Envelope :=
  match content with
  | none => (st, ⟨400, [("error", JVal.s "Content is required")]⟩, none)
  | some c =>
    let env := Envelope.setContent c
    let (st1, sent) := broadcast st env
    if sent then
      (st1, ⟨200, [("message", JVal.s "Content updated"), ("length", JVal.n c.length)]⟩,
        some env)
    else (st1, ⟨503, [("error", JVal.s "No browsers connected")]⟩, some env)

/-- `POST /api/editor/append` (lines 293-305), same validation as
`POST /content`. -/
def postAppendHandler (st : ServerState) (content : Option String) :
    ServerState × HttpResp × Option Envelope :=
  match content with
  | none => (st, ⟨400, [("error", JVal.s "Content is required")]⟩, none)
  | some c =>
    let env := Envelope.appendContent c
    let (st1, sent) := broadcast st env
    if sent then
      (st1, ⟨200, [("message", JVal.s "Content appended"), ("length", JVal.n c.length)]⟩,
        some env)
    else (st1, ⟨503, [("error", JVal.s "No browsers connected")]⟩, some env)

/-- `POST /api/editor/replace` (lines 308-323).  Destructuring gives
`flags = 'g'` only when the field is absent; `!find` rejects an absent or
empty pattern; the envelope carries `replace: replace || ''`. -/
def postReplaceHandler (st : ServerState) (find replaceArg flags : Option String) :
    ServerState × HttpResp × Option Envelope :=
  let flagsV := flags.getD "g"
  match find with
  | none => (st, ⟨400, [("error", JVal.s "Find pattern is required")]⟩, none)
  | some f =>
    if f = "" then (st, ⟨400, [("error", JVal.s "Find pattern is required")]⟩, none)
    else
      let env := Envelope.replaceEnv f (jsOrStr replaceArg "") flagsV
      let (st1, sent) := broadcast st env
      if sent then
        (st1, ⟨200, [("message", JVal.s "Text replacement sent")]⟩, some env)
      else (st1, ⟨503, [("error", JVal.s "No browsers connected")]⟩, some env)

/-- `GET /api/health` (lines 349-356): always 200, body
`{ status, clients, errors, message }`. -/
def healthHandler (st : ServerState) : HttpResp :=
  ⟨200,
    [("status", JVal.s "ok"),
     ("clients", JVal.n st.clients.length),
     ("errors", JVal.n st.recentErrors.length),
     ("message", JVal.s "Strudel API Server is running")]⟩

/-! ## Peer client (`src/website/src/repl/api-client.mjs`) -/

/-- The editing surface as the peer client sees it.  `code` is the
`editor.code` property, `docText` the
`editor.editor?.state?.doc?.toString()` fallback chain (`none` when the chain
hits `undefined`), `readError` is `some m` when evaluating that expression
throws an exception whose `message` is `m`, and `current` is the document as
read and written by `getCode()`/`setCode()`. -/
structure Editor where
  code : Option String
  docText : Option String
  readError : Option String
  current : String
  deriving DecidableEq, Repr

/-- A `content-response` envelope sent back by the peer. -/
structure ContentResponse where
  id : Nat
  content : String
  deriving DecidableEq, Repr

/-- Peer-client state: the (possibly unavailable) `window.strudelMirror`
editor, whether the websocket is open, the envelopes sent upstream, and how
many times `editor.evaluate()` has been invoked (always argument-less in the
source). -/
structure PeerState where
  editor : Option Editor
  wsOpen : Bool
  outbox : List ContentResponse
  evalCalls : Nat
  deriving DecidableEq, Repr

/-- `sendToAPI(message)` (lines 142-146): send only when the socket is open,
else drop. -/
def sendToAPI (st : PeerState) (resp : ContentResponse) : PeerState :=
  if st.wsOpen then { st with outbox := st.outbox ++ [resp] } else st

/-- The value computed for `content` in the `get-content` case (lines
96-103): `editor.code || editor.editor?.state?.doc?.toString() ||
'No content available'`, with a thrown exception caught and folded into the
string `Error reading content: <message>`. -/
def readContentValue (ed : Editor) : String :=
  match ed.readError with
  | some m => "Error reading content: " ++ m
  | none => jsOrStr ed.code (jsOrStr ed.docText "No content available")

/-- Inbound command envelopes as the peer client destructures them; fields
the server might omit are `Option`s. -/
inductive APIMessage where
  | getContent (id : Nat)
  | setContent (content : Option String)
  | replaceMsg (find : String) (replaceArg : Option String) (flags : Option String)
  | evaluateMsg (selection : Bool)
  | unknown (t : String)
  deriving DecidableEq, Repr

/-- `handleAPIMessage(message)` (lines 80-140).  `compile find flags` is the
host regex engine: `none` when `new RegExp(find, flags)` throws, otherwise the
substitution `fun replacement code => code.replace(regexp, replacement)`.
When the editor is unavailable the command is logged and dropped; the
`replace` case catches a compile failure and leaves everything unchanged; the
`evaluate` case calls the argument-less `editor.evaluate()` in both branches
of its `if (message.selection)`. -/
def handleAPIMessage (compile : String → String → Option (String → String → String))
    (st : PeerState) (msg : APIMessage) : PeerState :=
  match st.editor with
  | none => st
  | some ed =>
    match msg with
    | .getContent id => sendToAPI st ⟨id, readContentValue ed⟩
    | .setContent content =>
        match content with
        | some c => { st with editor := some { ed with current := c } }
        | none => st
    | .replaceMsg find replaceArg flags =>
        match compile find (jsOrStr flags "g") with
        | none => st
        | some sub =>
            { st with
              editor := some { ed with current := sub (jsOrStr replaceArg "") ed.current } }
    | .evaluateMsg selection =>
        if selection then { st with evalCalls := st.evalCalls + 1 }
        else { st with evalCalls := st.evalCalls + 1 }
    | .unknown _ => st

/-! ## Claims -/

/-- C1: for a pending correlation id, delivering both a content-response and
the timeout expiry, in either order, settles the request exactly once — the
first signal records the single settlement and removes the table entry in the
same step, and the second signal leaves the state untouched. -/
theorem settle_at_most_once (st : ServerState) (id : Nat) (c : String)
    (hid : id ≠ 0) (hmem : id ∈ st.pendingRequests)
    (hnd : st.pendingRequests.Nodup) :
    fireTimeout (handleContentResponse st id c) id = handleContentResponse st id c ∧
    (handleContentResponse st id c).outcomes =
      st.outcomes ++ [(id, ReqOutcome.resolved c)] ∧
    handleContentResponse (fireTimeout st id) id c = fireTimeout st id ∧
    (fireTimeout st id).outcomes = st.outcomes ++ [(id, ReqOutcome.timedOut)] := by
  have hgone : id ∉ st.pendingRequests.erase id := hnd.not_mem_erase
  have h1 : handleContentResponse st id c =
      { st with pendingRequests := st.pendingRequests.erase id,
                outcomes := st.outcomes ++ [(id, ReqOutcome.resolved c)] } := by
    simp [handleContentResponse, hid, hmem]
  have h2 : fireTimeout st id =
      { st with pendingRequests := st.pendingRequests.erase id,
                outcomes := st.outcomes ++ [(id, ReqOutcome.timedOut)] } := by
    simp [fireTimeout, hmem]
  refine ⟨?_, ?_, ?_, ?_⟩
  · rw [h1]; simp [fireTimeout, hgone]
  · rw [h1]
  · rw [h2]; simp [handleContentResponse, hgone]
  · rw [h2]

/-- Witness for `settle_at_most_once` at a concrete pending table. -/
theorem settle_at_most_once_witness :
    fireTimeout (handleContentResponse ⟨[], [5], [], [], [], 6⟩ 5 "x") 5 =
      handleContentResponse ⟨[], [5], [], [], [], 6⟩ 5 "x" ∧
    (handleContentResponse ⟨[], [5], [], [], [], 6⟩ 5 "x").outcomes =
      [(5, ReqOutcome.resolved "x")] := by
  have h := settle_at_most_once ⟨[], [5], [], [], [], 6⟩ 5 "x"
    (by decide) (by decide) (by decide)
  exact ⟨h.1, h.2.1⟩

/-- C4: `GET /content` with zero connected peers returns 503 at once and
leaves the state untouched — no correlation id is drawn, no pending-table
entry is made and no timer is started. -/
theorem getContent_noPeers_503 (st : ServerState) (h : st.clients = []) :
    getContentStart st =
      ⟨st, some ⟨503, [("error", JVal.s "No browsers connected")]⟩, none⟩ := by
  simp [getContentStart, h]

/-- Witness for `getContent_noPeers_503` at the empty server state. -/
theorem getContent_noPeers_503_witness :
    getContentStart ⟨[], [], [], [], [], 3⟩ =
      ⟨⟨[], [], [], [], [], 3⟩,
        some ⟨503, [("error", JVal.s "No browsers connected")]⟩, none⟩ :=
  getContent_noPeers_503 ⟨[], [], [], [], [], 3⟩ rfl

/-- C5: the error log never exceeds 10 records; an incoming error report is
appended at the tail, and when the log already holds 10 records the oldest
(head) record is evicted, keeping the FIFO order of the rest. -/
theorem errorLog_capacity (st : ServerState) (e : String) (src : Option String)
    (ts : String) (h : st.recentErrors.length ≤ 10) :
    (handleErrorReport st e src ts).recentErrors.length ≤ 10 ∧
    (st.recentErrors.length < 10 →
      (handleErrorReport st e src ts).recentErrors =
        st.recentErrors ++ [⟨e, ts, jsOrStr src "unknown"⟩]) ∧
    (st.recentErrors.length = 10 →
      (handleErrorReport st e src ts).recentErrors =
        st.recentErrors.tail ++ [⟨e, ts, jsOrStr src "unknown"⟩]) := by
  have hlen : (st.recentErrors ++ [(⟨e, ts, jsOrStr src "unknown"⟩ : ErrorRecord)]).length
      = st.recentErrors.length + 1 := by simp
  rcases lt_or_eq_of_le h with hlt | heq
  · have hng : ¬ (10 < st.recentErrors.length + 1) := by omega
    refine ⟨?_, fun _ => ?_, fun hq => ?_⟩
    · simp [handleErrorReport, pushError, hng]
      omega
    · simp [handleErrorReport, pushError, hng]
    · omega
  · have hne : st.recentErrors ≠ [] := by
      intro hnil; rw [hnil] at heq; simp at heq
    have hg : (st.recentErrors ++ [(⟨e, ts, jsOrStr src "unknown"⟩ : ErrorRecord)]).length > 10 := by
      rw [hlen]; omega
    have htl : (st.recentErrors ++ [(⟨e, ts, jsOrStr src "unknown"⟩ : ErrorRecord)]).tail
        = st.recentErrors.tail ++ [⟨e, ts, jsOrStr src "unknown"⟩] :=
      List.tail_append_of_ne_nil hne
    have h9 : st.recentErrors.tail.length = 9 := by
      rw [List.length_tail, heq]
    refine ⟨?_, fun hlt => ?_, fun _ => ?_⟩
    · simp only [handleErrorReport, pushError, if_pos hg]
      rw [htl]
      simp [h9]
    · omega
    · simp only [handleErrorReport, pushError, if_pos hg]
      exact htl

/-- Witness for `errorLog_capacity`: pushing an 11th record onto a full log
of ten evicts the oldest and keeps FIFO order. -/
theorem errorLog_capacity_witness :
    (handleErrorReport
        ⟨[], [], [],
          [⟨"e0", "t", "s"⟩, ⟨"e1", "t", "s"⟩, ⟨"e2", "t", "s"⟩, ⟨"e3", "t", "s"⟩,
           ⟨"e4", "t", "s"⟩, ⟨"e5", "t", "s"⟩, ⟨"e6", "t", "s"⟩, ⟨"e7", "t", "s"⟩,
           ⟨"e8", "t", "s"⟩, ⟨"e9", "t", "s"⟩], [], 0⟩
        "e10" (some "src") "t10").recentErrors =
      [⟨"e1", "t", "s"⟩, ⟨"e2", "t", "s"⟩, ⟨"e3", "t", "s"⟩, ⟨"e4", "t", "s"⟩,
       ⟨"e5", "t", "s"⟩, ⟨"e6", "t", "s"⟩, ⟨"e7", "t", "s"⟩, ⟨"e8", "t", "s"⟩,
       ⟨"e9", "t", "s"⟩, ⟨"e10", "t10", "src"⟩] := by
  have h := errorLog_capacity
    ⟨[], [], [],
      [⟨"e0", "t", "s"⟩, ⟨"e1", "t", "s"⟩, ⟨"e2", "t", "s"⟩, ⟨"e3", "t", "s"⟩,
       ⟨"e4", "t", "s"⟩, ⟨"e5", "t", "s"⟩, ⟨"e6", "t", "s"⟩, ⟨"e7", "t", "s"⟩,
       ⟨"e8", "t", "s"⟩, ⟨"e9", "t", "s"⟩], [], 0⟩
    "e10" (some "src") "t10" (by decide)
  have h2 := h.2.2 (by decide)
  rw [h2]
  decide

/-- C2: a read request with at least one connected peer registers its fresh
correlation id with a 5000 ms deadline timer; when the deadline fires before
any response, the waiter is rejected with the Timeout outcome (HTTP 408), the
table entry is removed, and a content-response arriving afterwards is a
no-op. -/
theorem getContent_timeout_408 (st : ServerState) (c : String)
    (hcl : st.clients ≠ [])
    (hfresh : st.idSeed ∉ st.pendingRequests) :
    (getContentStart st).immediate = none ∧
    (getContentStart st).registeredId = some st.idSeed ∧
    (st.idSeed, defaultTimeoutMs) ∈ (getContentStart st).state.timers ∧
    defaultTimeoutMs = 5000 ∧
    (fireTimeout (getContentStart st).state st.idSeed).pendingRequests =
      st.pendingRequests ∧
    st.idSeed ∉ (fireTimeout (getContentStart st).state st.idSeed).pendingRequests ∧
    (fireTimeout (getContentStart st).state st.idSeed).outcomes =
      st.outcomes ++ [(st.idSeed, ReqOutcome.timedOut)] ∧
    (respOfOutcome ReqOutcome.timedOut).status = 408 ∧
    handleContentResponse (fireTimeout (getContentStart st).state st.idSeed)
        st.idSeed c =
      fireTimeout (getContentStart st).state st.idSeed := by
  have hie : st.clients.isEmpty = false := by
    rw [Bool.eq_false_iff]
    intro hemp
    exact hcl (List.isEmpty_iff.mp hemp)
  have hstate : getContentStart st =
      ⟨{ st with
          idSeed := st.idSeed + 1
          pendingRequests := st.idSeed :: st.pendingRequests
          timers := st.timers ++ [(st.idSeed, defaultTimeoutMs)]
          clients := st.clients.map
            (sendFrame (serializeEnvelope (Envelope.getContent st.idSeed))) },
        none, some st.idSeed⟩ := by
    simp [getContentStart, broadcast, hie]
  rw [hstate]
  have hft : fireTimeout
      ({ st with
          idSeed := st.idSeed + 1
          pendingRequests := st.idSeed :: st.pendingRequests
          timers := st.timers ++ [(st.idSeed, defaultTimeoutMs)]
          clients := st.clients.map
            (sendFrame (serializeEnvelope (Envelope.getContent st.idSeed))) } :
        ServerState) st.idSeed =
      { st with
          idSeed := st.idSeed + 1
          pendingRequests := st.pendingRequests
          timers := st.timers ++ [(st.idSeed, defaultTimeoutMs)]
          clients := st.clients.map
            (sendFrame (serializeEnvelope (Envelope.getContent st.idSeed)))
          outcomes := st.outcomes ++ [(st.idSeed, ReqOutcome.timedOut)] } := by
    simp [fireTimeout]
  rw [hft]
  refine ⟨rfl, rfl, by simp, rfl, rfl, hfresh, rfl, rfl, ?_⟩
  simp [handleContentResponse, hfresh]

/-- Witness for `getContent_timeout_408`: one open peer, fresh id 7. -/
theorem getContent_timeout_408_witness :
    (fireTimeout (getContentStart ⟨[⟨true, false, []⟩], [], [], [], [], 7⟩).state 7).outcomes =
      [(7, ReqOutcome.timedOut)] ∧
    (respOfOutcome ReqOutcome.timedOut).status = 408 ∧
    (fireTimeout (getContentStart ⟨[⟨true, false, []⟩], [], [], [], [], 7⟩).state 7).pendingRequests =
      [] := by
  have h := getContent_timeout_408 ⟨[⟨true, false, []⟩], [], [], [], [], 7⟩ "late"
    (by decide) (by decide)
  exact ⟨h.2.2.2.2.2.2.1, h.2.2.2.2.2.2.2.1, h.2.2.2.2.1⟩

/-- C3: `broadcast` returns `false` with no side effect exactly when no peer
is registered, and `true` otherwise; the envelope is serialized once and that
frame is delivered to every open, non-faulting peer, while a closed peer or a
peer whose send faults is left exactly as it was — neither affects the return
value, which depends only on whether the registered set is empty. -/
theorem broadcast_fanout (st : ServerState) (env : Envelope) :
    ((broadcast st env).2 = true ↔ st.clients ≠ []) ∧
    (st.clients = [] → broadcast st env = (st, false)) ∧
    (broadcast st env).1.clients.length = st.clients.length ∧
    (∀ i (h1 : i < st.clients.length) (h2 : i < (broadcast st env).1.clients.length),
      ((st.clients.get ⟨i, h1⟩).readyStateOpen = true →
        (st.clients.get ⟨i, h1⟩).sendFails = false →
          ((broadcast st env).1.clients.get ⟨i, h2⟩).inbox =
            (st.clients.get ⟨i, h1⟩).inbox ++ [serializeEnvelope env]) ∧
      ((st.clients.get ⟨i, h1⟩).readyStateOpen = false ∨
          (st.clients.get ⟨i, h1⟩).sendFails = true →
        (broadcast st env).1.clients.get ⟨i, h2⟩ = st.clients.get ⟨i, h1⟩)) ∧
    (broadcast st env).1.pendingRequests = st.pendingRequests ∧
    (broadcast st env).1.recentErrors = st.recentErrors := by
  by_cases hc : st.clients = []
  · refine ⟨by simp [broadcast, hc], fun _ => by simp [broadcast, hc], by simp [broadcast, hc],
      fun i h1 h2 => ?_, by simp [broadcast, hc], by simp [broadcast, hc]⟩
    rw [hc] at h1
    exact absurd h1 (by simp)
  · have hie : st.clients.isEmpty = false := by
      rw [Bool.eq_false_iff]
      intro hemp
      exact hc (List.isEmpty_iff.mp hemp)
    refine ⟨by simp [broadcast, hie, hc], fun h => absurd h hc, by simp [broadcast, hie],
      fun i h1 h2 => ?_, by simp [broadcast, hie], by simp [broadcast, hie]⟩
    have hget : (broadcast st env).1.clients.get ⟨i, h2⟩ =
        sendFrame (serializeEnvelope env) (st.clients.get ⟨i, h1⟩) := by
      simp [broadcast, hie]
    rw [hget]
    simp only [List.get_eq_getElem]
    constructor
    · intro hop hsf
      simp [sendFrame, hop, hsf]
    · intro hbad
      rcases hbad with hop | hsf
      · simp [sendFrame, hop]
      · simp [sendFrame, hsf]

/-- Witness for `broadcast_fanout`: one open, non-faulting peer receives
exactly the serialized frame, and the call returns `true`. -/
theorem broadcast_fanout_witness :
    (broadcast ⟨[⟨true, false, []⟩], [], [], [], [], 0⟩ (Envelope.evaluateEnv false)).2 = true ∧
    ((broadcast ⟨[⟨true, false, []⟩], [], [], [], [], 0⟩
          (Envelope.evaluateEnv false)).1.clients.get ⟨0, by decide⟩).inbox =
      [serializeEnvelope (Envelope.evaluateEnv false)] := by
  have h := broadcast_fanout ⟨[⟨true, false, []⟩], [], [], [], [], 0⟩ (Envelope.evaluateEnv false)
  refine ⟨h.1.mpr (by decide), ?_⟩
  have h0 := (h.2.2.2.1 0 (by decide) (by decide)).1 rfl rfl
  simpa using h0

/-- C6: a `get-content` command handled with the editing surface available
and the channel open produces exactly one `content-response` carrying the
same correlation id; the content is always a string, and a failure while
reading is folded into that string as `Error reading content: <message>`
rather than raised. -/
theorem getContent_response_once
    (compile : String → String → Option (String → String → String))
    (st : PeerState) (ed : Editor) (id : Nat)
    (hed : st.editor = some ed) (hws : st.wsOpen = true) :
    (handleAPIMessage compile st (.getContent id)).outbox =
      st.outbox ++ [⟨id, readContentValue ed⟩] ∧
    (handleAPIMessage compile st (.getContent id)).editor = st.editor ∧
    (handleAPIMessage compile st (.getContent id)).evalCalls = st.evalCalls ∧
    (∀ m, ed.readError = some m →
      readContentValue ed = "Error reading content: " ++ m) := by
  refine ⟨?_, ?_, ?_, fun m hm => by simp [readContentValue, hm]⟩ <;>
    simp [handleAPIMessage, hed, sendToAPI, hws]

/-- Witness for `getContent_response_once`: a reading failure is answered by
one response with the error folded into the content string. -/
theorem getContent_response_once_witness :
    (handleAPIMessage (fun _ _ => none)
        ⟨some ⟨none, none, some "boom", "doc"⟩, true, [], 0⟩
        (.getContent 42)).outbox =
      [⟨42, "Error reading content: boom"⟩] := by
  have h := getContent_response_once (fun _ _ => none)
    ⟨some ⟨none, none, some "boom", "doc"⟩, true, [], 0⟩
    ⟨none, none, some "boom", "doc"⟩ 42 rfl rfl
  rw [h.1, h.2.2.2 "boom" rfl]
  rfl

/-- C7: a `replace` command whose pattern fails to compile is caught locally:
the peer state — editor content included — is left exactly as it was, and
nothing is sent back to the caller. -/
theorem replace_badPattern_noop
    (compile : String → String → Option (String → String → String))
    (st : PeerState) (find : String) (repl flags : Option String)
    (hfail : compile find (jsOrStr flags "g") = none) :
    handleAPIMessage compile st (.replaceMsg find repl flags) = st := by
  rcases hst : st.editor with _ | ed <;>
    simp [handleAPIMessage, hst, hfail]

/-- Witness for `replace_badPattern_noop` with a concretely failing
compiler. -/
theorem replace_badPattern_noop_witness :
    handleAPIMessage (fun _ _ => none)
        ⟨some ⟨some "code", none, none, "code"⟩, true, [], 0⟩
        (.replaceMsg "[" none none) =
      ⟨some ⟨some "code", none, none, "code"⟩, true, [], 0⟩ :=
  replace_badPattern_noop (fun _ _ => none)
    ⟨some ⟨some "code", none, none, "code"⟩, true, [], 0⟩ "[" none none rfl

/-- C10: with the editing surface available, an `evaluate` command behaves
identically whether the selection flag is true or false — both branches make
the same argument-less `editor.evaluate()` call and touch nothing else. -/
theorem evaluate_ignores_selection
    (compile : String → String → Option (String → String → String))
    (st : PeerState) :
    handleAPIMessage compile st (.evaluateMsg true) =
      handleAPIMessage compile st (.evaluateMsg false) ∧
    (∀ ed, st.editor = some ed → ∀ sel : Bool,
      (handleAPIMessage compile st (.evaluateMsg sel)).evalCalls = st.evalCalls + 1 ∧
      (handleAPIMessage compile st (.evaluateMsg sel)).outbox = st.outbox ∧
      (handleAPIMessage compile st (.evaluateMsg sel)).editor = st.editor) := by
  constructor
  · rcases hst : st.editor with _ | ed <;> simp [handleAPIMessage, hst]
  · intro ed hed sel
    rcases sel <;> simp [handleAPIMessage, hed]

/-- Witness for `evaluate_ignores_selection` with an available editor. -/
theorem evaluate_ignores_selection_witness :
    handleAPIMessage (fun _ _ => none)
        ⟨some ⟨some "c", none, none, "c"⟩, true, [], 3⟩ (.evaluateMsg true) =
      handleAPIMessage (fun _ _ => none)
        ⟨some ⟨some "c", none, none, "c"⟩, true, [], 3⟩ (.evaluateMsg false) ∧
    (handleAPIMessage (fun _ _ => none)
        ⟨some ⟨some "c", none, none, "c"⟩, true, [], 3⟩ (.evaluateMsg true)).evalCalls = 4 := by
  have h := evaluate_ignores_selection (fun _ _ => none)
    ⟨some ⟨some "c", none, none, "c"⟩, true, [], 3⟩
  exact ⟨h.1, (h.2 ⟨some "c", none, none, "c"⟩ rfl true).1⟩

/-- C8: `POST /content` and `POST /append` reject with 400 exactly when the
content field is absent (the empty string passes); `POST /replace` rejects
with 400 exactly when the find field is absent or empty; when validation
passes the corresponding envelope is handed to `broadcast`, the replace
envelope carrying `flags` defaulted to `"g"` when the field is absent. -/
theorem write_validation
    (st : ServerState) (c f r fl : Option String) :
    ((postContentHandler st c).2.1.status = 400 ↔ c = none) ∧
    ((postAppendHandler st c).2.1.status = 400 ↔ c = none) ∧
    ((postReplaceHandler st f r fl).2.1.status = 400 ↔ (f = none ∨ f = some "")) ∧
    (∀ s, c = some s → (postContentHandler st c).2.2 = some (Envelope.setContent s)) ∧
    (∀ s, c = some s → (postAppendHandler st c).2.2 = some (Envelope.appendContent s)) ∧
    (∀ s, f = some s → s ≠ "" →
      (postReplaceHandler st f r fl).2.2 =
        some (Envelope.replaceEnv s (jsOrStr r "") (fl.getD "g"))) ∧
    (fl = none → fl.getD "g" = "g") := by
  have hb : ∀ env : Envelope, (broadcast st env).2 = true ∨ (broadcast st env).2 = false := by
    intro env
    rcases (broadcast st env).2 with _ | _
    · exact Or.inr rfl
    · exact Or.inl rfl
  refine ⟨?_, ?_, ?_, ?_, ?_, ?_, fun hnone => by rw [hnone]; rfl⟩
  · rcases c with _ | s
    · simp [postContentHandler]
    · rcases hb (Envelope.setContent s) with hs | hs <;>
        simp [postContentHandler, hs]
  · rcases c with _ | s
    · simp [postAppendHandler]
    · rcases hb (Envelope.appendContent s) with hs | hs <;>
        simp [postAppendHandler, hs]
  · rcases f with _ | s
    · simp [postReplaceHandler]
    · by_cases hse : s = ""
      · simp [postReplaceHandler, hse]
      · rcases hb (Envelope.replaceEnv s (jsOrStr r "") (fl.getD "g")) with hs | hs <;>
          simp [postReplaceHandler, hse, hs]
  · intro s hcs
    subst hcs
    rcases hb (Envelope.setContent s) with hs | hs <;>
      simp [postContentHandler, hs]
  · intro s hcs
    subst hcs
    rcases hb (Envelope.appendContent s) with hs | hs <;>
      simp [postAppendHandler, hs]
  · intro s hfs hse
    subst hfs
    rcases hb (Envelope.replaceEnv s (jsOrStr r "") (fl.getD "g")) with hs | hs <;>
      simp [postReplaceHandler, hse, hs]

/-- Witness for `write_validation`: empty content passes, an absent find is
rejected, and `{find:"bd", replace:"808"}` with flags absent yields the
`replace` envelope with `flags:"g"`. -/
theorem write_validation_witness :
    ¬ ((postContentHandler ⟨[⟨true, false, []⟩], [], [], [], [], 0⟩ (some "")).2.1.status = 400) ∧
    (postReplaceHandler ⟨[⟨true, false, []⟩], [], [], [], [], 0⟩ none (some "808") none).2.1.status
      = 400 ∧
    (postReplaceHandler ⟨[⟨true, false, []⟩], [], [], [], [], 0⟩ (some "bd") (some "808")
        none).2.2 = some (Envelope.replaceEnv "bd" "808" "g") := by
  have h1 := write_validation ⟨[⟨true, false, []⟩], [], [], [], [], 0⟩ (some "") none
    (some "808") none
  have h2 := write_validation ⟨[⟨true, false, []⟩], [], [], [], [], 0⟩ (some "") (some "bd")
    (some "808") none
  refine ⟨fun habs => Option.some_ne_none "" (h1.1.mp habs), h1.2.2.1.mpr (Or.inl rfl), ?_⟩
  have h3 := h2.2.2.2.2.2.1 "bd" rfl (by decide)
  rw [h3]
  decide

/-- C9 counterexample: the health body does not consist of exactly the fields
`status`, `connectedPeers`, `errorCount` — the route answers with the field
names `status`, `clients`, `errors` plus a fourth `message` field. -/
theorem health_body_counterexample :
    (healthHandler ⟨[], [], [], [], [], 0⟩).body.map Prod.fst =
      ["status", "clients", "errors", "message"] ∧
    ¬ ((healthHandler ⟨[], [], [], [], [], 0⟩).body.map Prod.fst =
        ["status", "connectedPeers", "errorCount"]) ∧
    ¬ ((healthHandler ⟨[], [], [], [], [], 0⟩).body.map Prod.fst =
        ["status", "clients", "errors"]) := by
  decide

/-- C9 (amended): `GET /health` always succeeds with status 200; its body
carries the fields `status` (the string `ok`), `clients` (the number of
currently-attached peers) and `errors` (the current size of the error log),
plus a fixed informational `message` field. -/
theorem health_body (st : ServerState) :
    (healthHandler st).status = 200 ∧
    (healthHandler st).body.map Prod.fst = ["status", "clients", "errors", "message"] ∧
    (healthHandler st).body.lookup "status" = some (JVal.s "ok") ∧
    (healthHandler st).body.lookup "clients" = some (JVal.n st.clients.length) ∧
    (healthHandler st).body.lookup "errors" = some (JVal.n st.recentErrors.length) := by
  refine ⟨rfl, rfl, ?_, ?_, ?_⟩ <;> rfl

end StrudelBridge
